import Mathlib

/-!
Shallow embedding of `src/main.py`, a small read-only trade query service:
a record type `Trade`, a startup dataset generator `generate_db`, and three
request handlers `get_trades` (list/filter), `get_trade_by_id`, and
`search_trades`.

Modelling conventions:
* Python `datetime` values are embedded as integers through an
  order-preserving encoding `pyDatetime` (the handlers only compare them).
* Python `float` prices are embedded as rationals (`ℚ`); the comparisons
  the code performs on non-NaN floats agree with the rational order.
* Python truthiness guards (`if asset_class:`, `if max_price:` …) are
  embedded explicitly: an absent optional parameter, the empty string and
  the number `0` are falsy; a present `datetime` is always truthy.
* Python list slicing `l[a:b]` (step 1) is embedded as `pySlice` with the
  clamping rules for negative and out-of-range indices.
* `list.sort(key=…, reverse=r)` is a stable sort; it is embedded as
  `pySort` (a stable insertion sort) with the boolean preorder
  `sortKeyLe r`, which is stable and orders by the same key.
-/

namespace TradeService

/-- Python `s.lower()` on the character list of a string. -/
def lowerChars (s : String) : List Char := s.data.map Char.toLower

/-- Python substring test `n in h` on character lists. -/
def subIn (n : List Char) : List Char → Bool
  | [] => n.isPrefixOf []
  | c :: t => n.isPrefixOf (c :: t) || subIn n t

/-- Clamp one Python slice index to the length `len` of the list:
negative indices count from the end, and out-of-range indices clamp. -/
def pySliceIdx (len : Nat) (i : Int) : Nat :=
  if i < 0 then len - (-i).toNat else min i.toNat len

/-- Python list slicing `l[a:b]` with step 1. -/
def pySlice (l : List α) (a b : Int) : List α :=
  let a2 := pySliceIdx l.length a
  let b2 := pySliceIdx l.length b
  (l.drop a2).take (b2 - a2)

/-- Embedding of the pydantic model `TradeDetails`. -/
structure TradeDetails where
  buySellIndicator : String
  price : ℚ
  quantity : Int
deriving DecidableEq

/-- Embedding of the pydantic model `Trade` (field names follow the Python
attribute names; the camelCase strings are only serialization aliases). -/
structure Trade where
  asset_class : Option String
  counterparty : Option String
  instrument_id : String
  instrument_name : String
  trade_date_time : Int
  trade_details : TradeDetails
  trade_id : String
  trader : String
deriving DecidableEq

/-- Python truthiness of an optional string (`None` and `""` are falsy). -/
def truthyS : Option String → Bool
  | none => false
  | some s => !s.isEmpty

/-- Python truthiness of an optional float (`None` and `0` are falsy). -/
def truthyR : Option ℚ → Bool
  | none => false
  | some x => x != 0

/-- Python truthiness of an optional datetime (`datetime` objects are
always truthy, so this is presence). -/
def truthyD : Option Int → Bool
  | none => false
  | some _ => true

/-- One guarded narrowing step of `get_trades`: Python
`if g: f = [t for t in f if p(t)]`. -/
def guardFilter (g : Bool) (p : Trade → Bool) (l : List Trade) : List Trade :=
  if g then l.filter p else l

/-- The six sequential narrowing filters of `get_trades`, in source order:
asset_class, end, max_price, min_price, start, trade_type. -/
def applyFilters (db : List Trade) (asset_class : Option String) (end_ : Option Int)
    (max_price min_price : Option ℚ) (start : Option Int) (trade_type : Option String) :
    List Trade :=
  let f := db
  let f := guardFilter (truthyS asset_class)
    (fun t => t.asset_class == some (asset_class.getD "")) f
  let f := guardFilter (truthyD end_)
    (fun t => decide (t.trade_date_time ≤ end_.getD 0)) f
  let f := guardFilter (truthyR max_price)
    (fun t => decide (t.trade_details.price ≤ max_price.getD 0)) f
  let f := guardFilter (truthyR min_price)
    (fun t => decide (min_price.getD 0 ≤ t.trade_details.price)) f
  let f := guardFilter (truthyD start)
    (fun t => decide (start.getD 0 ≤ t.trade_date_time)) f
  let f := guardFilter (truthyS trade_type)
    (fun t => t.trade_details.buySellIndicator == trade_type.getD "") f
  f

/-- The boolean comparison used to embed
`paginated_trades.sort(key=lambda t: t.trade_date_time, reverse=reverse)`:
a stable sort with this preorder places `a` before `b` exactly when
Python's stable sort does. -/
def sortKeyLe (reverse : Bool) (a b : Trade) : Bool :=
  if reverse then decide (b.trade_date_time ≤ a.trade_date_time)
  else decide (a.trade_date_time ≤ b.trade_date_time)

/-- Embedding of `list.sort(key=…, reverse=…)`: a stable sort under the
total preorder `le`. (Python's timsort and insertion sort are both stable,
and a stable sort under a total preorder has a unique output.) -/
def pySort (le : Trade → Trade → Bool) (l : List Trade) : List Trade :=
  List.insertionSort (fun a b => le a b) l

/-- The successful response shape of the list and search endpoints. -/
structure PageResult where
  total_count : Nat
  page : Int
  trades : List Trade
deriving DecidableEq

/-- Embedding of the handler of `GET /trades` (the `try` body; every
operation in it is total, so the `except` branch is unreachable). -/
def get_trades (db : List Trade) (asset_class : Option String) (end_ : Option Int)
    (max_price min_price : Option ℚ) (start : Option Int) (trade_type : Option String)
    (page limit : Int) (sort : String) : PageResult :=
  let filtered_trades := applyFilters db asset_class end_ max_price min_price start trade_type
  let total_trades := filtered_trades.length
  let start_index := (page - 1) * limit
  let end_index := start_index + limit
  let paginated_trades := pySlice filtered_trades start_index end_index
  let reverse := lowerChars sort == "desc".data
  { total_count := total_trades, page := page,
    trades := pySort (sortKeyLe reverse) paginated_trades }

/-- The result of `GET /trades/id/{trade_id}`: a trade, or the error dict. -/
inductive IdResult where
  | found (t : Trade)
  | err (msg : String)
deriving DecidableEq

/-- Embedding of the handler of `GET /trades/id/{trade_id}`: a linear scan
returning the first exact `trade_id` match. -/
def get_trade_by_id (db : List Trade) (trade_id : String) : IdResult :=
  match db with
  | [] => .err "Trade not found"
  | t :: rest =>
    if t.trade_id == trade_id then .found t else get_trade_by_id rest trade_id

/-- The match predicate of the search loop in `search_trades`: `ql` is the
lowered query; OR across counterparty (skipped when `None`), instrument_id,
instrument_name and trader. -/
def matchesQ (ql : List Char) (t : Trade) : Bool :=
  (match t.counterparty with
   | some c => subIn ql (lowerChars c)
   | none => false)
  || subIn ql (lowerChars t.instrument_id)
  || subIn ql (lowerChars t.instrument_name)
  || subIn ql (lowerChars t.trader)

/-- Embedding of the handler of `GET /trades/search` (the `try` body; every
operation in it is total, so the `except` branch is unreachable). -/
def search_trades (db : List Trade) (q : String) (page limit : Int) (sort : String) :
    PageResult :=
  let searched_trades := db.filter (matchesQ (lowerChars q))
  let total_trades := searched_trades.length
  let start_index := (page - 1) * limit
  let end_index := start_index + limit
  let paginated_trades := pySlice searched_trades start_index end_index
  let reverse := lowerChars sort == "desc".data
  { total_count := total_trades, page := page,
    trades := pySort (sortKeyLe reverse) paginated_trades }

/-! ## Dataset generator -/

/-- Order-preserving encoding of `datetime(y, mo, d, h, mi)` into `Int`
(faithful to the lexicographic datetime order on the in-range component
values the generator produces). -/
def pyDatetime (y mo d h mi : Nat) : Int :=
  ((((y * 13 + mo) * 32 + d) * 24 + h) * 60 + mi : Nat)

def assetClasses : List String := ["Equity", "Bond", "FX"]

def counterParties : List String :=
  ["ABC Bank", "XYZ Investment", "DEF Forex", "XYZ Bank", "PQR Investment"]

def instrumentIds : List String := ["TSLA", "AAPL", "EURUSD", "AMZN", "GOOG"]

def instrumentNames : List String := ["Tesla", "Apple", "Euro/USD", "Amazon", "Google"]

def buySellIndicators : List String := ["BUY", "SELL"]

def traders : List String :=
  ["John Doe", "Jane Smith", "Bob Johnson", "Alice Williams", "Robert Johnson"]

/-- The random draws `generate_db` makes for record `i`: one arbitrary
natural per randomized field. `random.randint(a, b)` applied at draw `x`
is embedded as `a + x % (b - a + 1)`, so the draw ranges over exactly the
values the Python call can return. -/
structure Rng where
  assetIdx : Nat → Nat
  cpIdx : Nat → Nat
  instIdx : Nat → Nat
  nameIdx : Nat → Nat
  month : Nat → Nat
  day : Nat → Nat
  bsIdx : Nat → Nat
  price : Nat → Nat
  qty : Nat → Nat

/-- The `Trade` built in iteration `i` of the loop of `generate_db`. -/
def mkTrade (r : Rng) (i : Nat) : Trade :=
  { asset_class := some (assetClasses.getD (r.assetIdx i % assetClasses.length) "")
    counterparty := some (counterParties.getD (r.cpIdx i % counterParties.length) "")
    instrument_id := instrumentIds.getD (r.instIdx i % instrumentIds.length) ""
    instrument_name := instrumentNames.getD (r.nameIdx i % instrumentNames.length) ""
    trade_date_time := pyDatetime 2022 (1 + r.month i % 12) (1 + r.day i % 28) 14 30
    trade_details :=
      { buySellIndicator := buySellIndicators.getD (r.bsIdx i % buySellIndicators.length) ""
        price := ((1 + r.price i % 1000 : Nat) : ℚ)
        quantity := ((1 + r.qty i % 50 : Nat) : Int) }
    trade_id := toString i
    trader := traders.getD (i % traders.length) "" }

/-- Embedding of `generate_db`, parameterised by the random draws. -/
def generate_db (r : Rng) : List Trade := (List.range 100).map (mkTrade r)

/-! ## Heap model of the handlers

In Python the stored collection `trades_db` is a heap-allocated list; the
handlers read it, build fresh lists by comprehension and by slicing (a
slice copies), and mutate only the fresh slice via `list.sort`. To state
that no request mutates the stored collection, the handlers are re-run over
an explicit heap of list cells: `trades_db` lives in cell `dbRef`, the
slice is allocated as a new cell, and `.sort()` writes that cell in place. -/

/-- Heap-level embedding of the `GET /trades` handler: reads the collection
at `dbRef`, allocates the page slice as a fresh cell, and sorts that cell
in place. Returns the response and the final heap. -/
def get_trades_heap (h0 : List (List Trade)) (dbRef : Nat) (asset_class : Option String)
    (end_ : Option Int) (max_price min_price : Option ℚ) (start : Option Int)
    (trade_type : Option String) (page limit : Int) (sort : String) :
    PageResult × List (List Trade) :=
  let db := h0.getD dbRef []
  let filtered_trades := applyFilters db asset_class end_ max_price min_price start trade_type
  let total_trades := filtered_trades.length
  let start_index := (page - 1) * limit
  let end_index := start_index + limit
  let h1 := h0 ++ [pySlice filtered_trades start_index end_index]
  let pagRef := h0.length
  let reverse := lowerChars sort == "desc".data
  let h2 := h1.set pagRef (pySort (sortKeyLe reverse) (h1.getD pagRef []))
  ({ total_count := total_trades, page := page, trades := h2.getD pagRef [] }, h2)

/-- Heap-level embedding of the `GET /trades/search` handler. -/
def search_trades_heap (h0 : List (List Trade)) (dbRef : Nat) (q : String)
    (page limit : Int) (sort : String) : PageResult × List (List Trade) :=
  let db := h0.getD dbRef []
  let searched_trades := db.filter (matchesQ (lowerChars q))
  let total_trades := searched_trades.length
  let start_index := (page - 1) * limit
  let end_index := start_index + limit
  let h1 := h0 ++ [pySlice searched_trades start_index end_index]
  let pagRef := h0.length
  let reverse := lowerChars sort == "desc".data
  let h2 := h1.set pagRef (pySort (sortKeyLe reverse) (h1.getD pagRef []))
  ({ total_count := total_trades, page := page, trades := h2.getD pagRef [] }, h2)

/-- Heap-level embedding of the `GET /trades/id/{trade_id}` handler: it
only reads the collection and allocates nothing, so the heap is returned
as is. -/
def get_trade_by_id_heap (h0 : List (List Trade)) (dbRef : Nat) (trade_id : String) :
    IdResult × List (List Trade) :=
  (get_trade_by_id (h0.getD dbRef []) trade_id, h0)

/-! ## Predicate forms used by the statements -/

/-- The six filters of `get_trades` as one conjunctive predicate, with the
same truthiness guards the code applies. -/
def satisfiesAll (asset_class : Option String) (end_ : Option Int)
    (max_price min_price : Option ℚ) (start : Option Int) (trade_type : Option String)
    (t : Trade) : Bool :=
  (!truthyS asset_class || t.asset_class == some (asset_class.getD "")) &&
  (!truthyD end_ || decide (t.trade_date_time ≤ end_.getD 0)) &&
  (!truthyR max_price || decide (t.trade_details.price ≤ max_price.getD 0)) &&
  (!truthyR min_price || decide (min_price.getD 0 ≤ t.trade_details.price)) &&
  (!truthyD start || decide (start.getD 0 ≤ t.trade_date_time)) &&
  (!truthyS trade_type || t.trade_details.buySellIndicator == trade_type.getD "")

/-- Spec-side predicate, following the claim wording for the list-endpoint
filters: a record satisfies every *supplied* parameter, where a parameter
is supplied exactly when it is present (`some`), with `min_price` and
`max_price` read as inclusive bounds on `trade_details.price`. -/
def specSatisfiesSupplied (asset_class : Option String) (end_ : Option Int)
    (max_price min_price : Option ℚ) (start : Option Int) (trade_type : Option String)
    (t : Trade) : Bool :=
  (match asset_class with | some a => t.asset_class == some a | none => true) &&
  (match end_ with | some e => decide (t.trade_date_time ≤ e) | none => true) &&
  (match max_price with | some x => decide (t.trade_details.price ≤ x) | none => true) &&
  (match min_price with | some x => decide (x ≤ t.trade_details.price) | none => true) &&
  (match start with | some s => decide (s ≤ t.trade_date_time) | none => true) &&
  (match trade_type with | some s => t.trade_details.buySellIndicator == s | none => true)

/-! ## Concrete data for counterexamples and witnesses -/

/-- A default `Trade` used with `List.getD`. -/
def defaultTrade : Trade :=
  { asset_class := none, counterparty := none, instrument_id := "", instrument_name := ""
    trade_date_time := 0
    trade_details := { buySellIndicator := "", price := 0, quantity := 0 }
    trade_id := "", trader := "" }

/-- A concrete trade with the given id, date and price. -/
def sampleTrade (tid : String) (dt : Int) (p : ℚ) : Trade :=
  { asset_class := some "Equity", counterparty := some "ABC Bank"
    instrument_id := "TSLA", instrument_name := "Tesla"
    trade_date_time := dt
    trade_details := { buySellIndicator := "BUY", price := p, quantity := 1 }
    trade_id := tid, trader := "John Doe" }

/-- A two-record collection whose insertion order is descending by date. -/
def exDb2 : List Trade := [sampleTrade "0" 2 10, sampleTrade "1" 1 20]

/-- The all-zero random source. -/
def zeroRng : Rng :=
  { assetIdx := fun _ => 0, cpIdx := fun _ => 0, instIdx := fun _ => 0
    nameIdx := fun _ => 0, month := fun _ => 0, day := fun _ => 0
    bsIdx := fun _ => 0, price := fun _ => 0, qty := fun _ => 0 }

/-! ## Helper lemmas -/

/-- The empty string is a Python substring of every string. -/
theorem subIn_nil (h : List Char) : subIn [] h = true := by
  induction h with
  | nil => rfl
  | cons c t ih => simp [subIn, List.isPrefixOf]

/-- The search predicate with an empty query matches every record. -/
theorem matchesQ_nil (t : Trade) : matchesQ [] t = true := by
  unfold matchesQ
  cases h : t.counterparty <;> simp [subIn_nil]

/-- A guarded filter is a filter whose predicate is vacuous when the guard
is off. -/
theorem guardFilter_eq_filter (g : Bool) (p : Trade → Bool) (l : List Trade) :
    guardFilter g p l = l.filter (fun t => !g || p t) := by
  cases g <;> simp [guardFilter]

/-- The six sequential narrowing filters amount to one conjunctive filter. -/
theorem applyFilters_eq_filter (db : List Trade) (ac : Option String) (end_ : Option Int)
    (maxp minp : Option ℚ) (start : Option Int) (tt : Option String) :
    applyFilters db ac end_ maxp minp start tt
      = db.filter (satisfiesAll ac end_ maxp minp start tt) := by
  unfold applyFilters satisfiesAll
  simp only [guardFilter_eq_filter, List.filter_filter]
  congr 1
  funext t
  cases truthyS ac <;> cases truthyD end_ <;> cases truthyR maxp <;> cases truthyR minp <;>
    cases truthyD start <;> cases truthyS tt <;>
      simp [Bool.and_comm, Bool.and_assoc, Bool.and_left_comm]

/-- `pySort` permutes its input. -/
theorem pySort_perm (le : Trade → Trade → Bool) (l : List Trade) :
    (pySort le l).Perm l :=
  List.perm_insertionSort _ l

/-- `pySort` under `sortKeyLe rev` yields adjacent pairs related by
`sortKeyLe rev`. -/
theorem pySort_sorted (rev : Bool) (l : List Trade) :
    (pySort (sortKeyLe rev) l).Chain' (fun a b => sortKeyLe rev a b = true) := by
  haveI : IsTotal Trade (fun a b => sortKeyLe rev a b = true) := by
    constructor
    intro a b
    cases rev <;> simp [sortKeyLe] <;> omega
  haveI : IsTrans Trade (fun a b => sortKeyLe rev a b = true) := by
    constructor
    intro a b c
    cases rev <;> simp [sortKeyLe] <;> omega
  exact (List.sorted_insertionSort _ l).chain'

/-- Python slicing at a nonnegative start with a nonnegative width is
drop-then-take. -/
theorem pySlice_nonneg (l : List α) (s len : Int) (hs : 0 ≤ s) (hlen : 0 ≤ len) :
    pySlice l s (s + len) = (l.drop s.toNat).take len.toNat := by
  unfold pySlice pySliceIdx
  have h1 : ¬ s < 0 := by omega
  have h2 : ¬ s + len < 0 := by omega
  simp only [if_neg h1, if_neg h2]
  rw [Int.toNat_add hs hlen]
  rcases le_or_lt l.length s.toNat with h | h
  · rw [min_eq_right h, List.drop_length, List.drop_eq_nil_of_le h]
    simp
  · rw [min_eq_left (le_of_lt h), List.take_eq_take, List.length_drop]
    omega

/-- Python slicing starting at or beyond the end of the list is empty. -/
theorem pySlice_of_len_le (l : List α) (s e : Int) (hs : 0 ≤ s)
    (h : (l.length : Int) ≤ s) :
    pySlice l s e = [] := by
  unfold pySlice pySliceIdx
  have h1 : ¬ s < 0 := by omega
  simp only [if_neg h1]
  have h2 : min s.toNat l.length = l.length := by omega
  rw [h2, List.drop_length]
  simp

/-- Setting the freshly appended cell rewrites only that cell. -/
theorem set_appended_cell (h0 : List (List Trade)) (x y : List Trade) :
    (h0 ++ [x]).set h0.length y = h0 ++ [y] := by
  rw [List.set_append]
  simp

/-- Reading the freshly appended cell. -/
theorem getD_appended_cell (h0 : List (List Trade)) (x : List Trade) :
    (h0 ++ [x]).getD h0.length [] = x := by
  rw [List.getD_eq_getElem _ _ (by simp)]
  simp

/-- Unfolding the descending comparison. -/
theorem sortKeyLe_true_iff (a b : Trade) :
    sortKeyLe true a b = true ↔ b.trade_date_time ≤ a.trade_date_time := by
  simp [sortKeyLe]

/-- Unfolding the ascending comparison. -/
theorem sortKeyLe_false_iff (a b : Trade) :
    sortKeyLe false a b = true ↔ a.trade_date_time ≤ b.trade_date_time := by
  simp [sortKeyLe]

/-- Converting the sortedness of `pySort` to a date chain. -/
theorem pySort_chain_dates (rev : Bool) (l : List Trade) :
    (rev = true →
      (pySort (sortKeyLe rev) l).Chain' (fun a b => b.trade_date_time ≤ a.trade_date_time)) ∧
    (rev = false →
      (pySort (sortKeyLe rev) l).Chain' (fun a b => a.trade_date_time ≤ b.trade_date_time)) := by
  constructor
  · intro h
    subst h
    exact (pySort_sorted true l).imp (fun a b hab => (sortKeyLe_true_iff a b).mp hab)
  · intro h
    subst h
    exact (pySort_sorted false l).imp (fun a b hab => (sortKeyLe_false_iff a b).mp hab)

/-! ## Claims -/

/-- C1 (counterexample): with the invalid sort value "invalid", the
returned page of the list endpoint is *not* descending by date, contrary
to the claim that invalid values default to descending: on a collection
whose dates are [2, 1] in insertion order, the returned page has dates
[1, 2]. -/
theorem sort_invalid_not_descending :
    ¬ (get_trades exDb2 none none none none none none 1 4 "invalid").trades.Chain'
      (fun a b => b.trade_date_time ≤ a.trade_date_time) := by
  have h : (get_trades exDb2 none none none none none none 1 4 "invalid").trades
      = [sampleTrade "1" 1 20, sampleTrade "0" 2 10] := by decide
  rw [h]
  simp [sampleTrade]

/-- C1 (amended): the returned page of the list endpoint and of the search
endpoint is ordered by tradeDateTime according to the sort parameter:
descending (every adjacent pair satisfies date[i] >= date[i+1]) exactly
when `sort` equals "desc" case-insensitively, and ascending (every
adjacent pair satisfies date[i] <= date[i+1]) for every other value of
`sort`, including "asc" and invalid values, which default to ascending. -/
theorem sort_direction_correct (db : List Trade) (ac : Option String) (end_ : Option Int)
    (maxp minp : Option ℚ) (start : Option Int) (tt : Option String)
    (page limit : Int) (sort q : String) :
    (lowerChars sort = "desc".data →
      (get_trades db ac end_ maxp minp start tt page limit sort).trades.Chain'
        (fun a b => b.trade_date_time ≤ a.trade_date_time) ∧
      (search_trades db q page limit sort).trades.Chain'
        (fun a b => b.trade_date_time ≤ a.trade_date_time)) ∧
    (lowerChars sort ≠ "desc".data →
      (get_trades db ac end_ maxp minp start tt page limit sort).trades.Chain'
        (fun a b => a.trade_date_time ≤ b.trade_date_time) ∧
      (search_trades db q page limit sort).trades.Chain'
        (fun a b => a.trade_date_time ≤ b.trade_date_time)) := by
  constructor
  · intro h
    have hrev : (lowerChars sort == "desc".data) = true := by simpa using h
    constructor
    · show ((pySort (sortKeyLe (lowerChars sort == "desc".data)) _).Chain' _)
      rw [hrev]
      exact (pySort_chain_dates true _).1 rfl
    · show ((pySort (sortKeyLe (lowerChars sort == "desc".data)) _).Chain' _)
      rw [hrev]
      exact (pySort_chain_dates true _).1 rfl
  · intro h
    have hrev : (lowerChars sort == "desc".data) = false := by simpa using h
    constructor
    · show ((pySort (sortKeyLe (lowerChars sort == "desc".data)) _).Chain' _)
      rw [hrev]
      exact (pySort_chain_dates false _).2 rfl
    · show ((pySort (sortKeyLe (lowerChars sort == "desc".data)) _).Chain' _)
      rw [hrev]
      exact (pySort_chain_dates false _).2 rfl

/-- C1 (witness): concrete instances of both branches of the amended sort
direction theorem. -/
theorem sort_direction_correct_witness :
    (lowerChars "DeSc" = "desc".data ∧
      (get_trades exDb2 none none none none none none 1 4 "DeSc").trades.Chain'
        (fun a b => b.trade_date_time ≤ a.trade_date_time)) ∧
    (lowerChars "asc" ≠ "desc".data ∧
      (get_trades exDb2 none none none none none none 1 4 "asc").trades.Chain'
        (fun a b => a.trade_date_time ≤ b.trade_date_time)) :=
  ⟨⟨by decide,
    ((sort_direction_correct exDb2 none none none none none none 1 4 "DeSc" "").1
      (by decide)).1⟩,
   ⟨by decide,
    ((sort_direction_correct exDb2 none none none none none none 1 4 "asc" "").2
      (by decide)).1⟩⟩

/-- C2: at the list endpoint with page ≥ 1 and limit ≥ 1, at most `limit`
trades are returned; `total_count` equals the number of records satisfying
the conjunction of the applied filters, independently of page, limit and
sort; and a page starting at or beyond the filtered count returns an empty
page while `total_count` is unchanged. -/
theorem list_count_and_page_bounds (db : List Trade) (ac : Option String) (end_ : Option Int)
    (maxp minp : Option ℚ) (start : Option Int) (tt : Option String)
    (page limit : Int) (sort : String) (hp : 1 ≤ page) (hl : 1 ≤ limit) :
    ((get_trades db ac end_ maxp minp start tt page limit sort).trades.length : Int) ≤ limit ∧
    (get_trades db ac end_ maxp minp start tt page limit sort).total_count
      = (db.filter (satisfiesAll ac end_ maxp minp start tt)).length ∧
    (∀ page2 limit2 sort2,
      (get_trades db ac end_ maxp minp start tt page2 limit2 sort2).total_count
        = (get_trades db ac end_ maxp minp start tt page limit sort).total_count) ∧
    (((db.filter (satisfiesAll ac end_ maxp minp start tt)).length : Int) ≤ (page - 1) * limit →
      (get_trades db ac end_ maxp minp start tt page limit sort).trades = []) := by
  have hs : (0 : Int) ≤ (page - 1) * limit := mul_nonneg (by omega) (by omega)
  have hslice := pySlice_nonneg (applyFilters db ac end_ maxp minp start tt)
    ((page - 1) * limit) limit hs (by omega)
  refine ⟨?_, ?_, fun page2 limit2 sort2 => rfl, ?_⟩
  · show (((pySort _ (pySlice _ _ _)).length : Int) ≤ limit)
    rw [(pySort_perm _ _).length_eq, hslice]
    have h1 := List.length_take_le limit.toNat
      ((applyFilters db ac end_ maxp minp start tt).drop ((page - 1) * limit).toNat)
    have h2 : (limit.toNat : Int) = limit := Int.toNat_of_nonneg (by omega)
    omega
  · show (applyFilters db ac end_ maxp minp start tt).length = _
    rw [applyFilters_eq_filter]
  · intro h
    show pySort _ (pySlice _ _ _) = []
    rw [pySlice_of_len_le _ _ _ hs (by rw [applyFilters_eq_filter]; exact h)]
    rfl

/-- C2 (witness): a concrete instance — a page far beyond the two filtered
records is empty while `total_count` stays 2. -/
theorem list_count_and_page_bounds_witness :
    (1 : Int) ≤ 1000 ∧ (1 : Int) ≤ 4 ∧
    ((get_trades exDb2 none none none none none none 1000 4 "desc").trades.length : Int) ≤ 4 ∧
    (get_trades exDb2 none none none none none none 1000 4 "desc").total_count
      = (exDb2.filter (satisfiesAll none none none none none none)).length ∧
    (((exDb2.filter (satisfiesAll none none none none none none)).length : Int) ≤ (1000 - 1) * 4 →
      (get_trades exDb2 none none none none none none 1000 4 "desc").trades = []) :=
  ⟨by norm_num, by norm_num,
    (list_count_and_page_bounds exDb2 none none none none none none 1000 4 "desc"
      (by norm_num) (by norm_num)).1,
    (list_count_and_page_bounds exDb2 none none none none none none 1000 4 "desc"
      (by norm_num) (by norm_num)).2.1,
    (list_count_and_page_bounds exDb2 none none none none none none 1000 4 "desc"
      (by norm_num) (by norm_num)).2.2.2⟩

/-- C3: at the list endpoint with page ≥ 1 and limit ≥ 1, the returned page
is a permutation of the zero-based slice [(page-1)*limit, (page-1)*limit +
limit) of the filtered collection taken in insertion order, and it equals
exactly that slice re-sorted by tradeDateTime — sorting is applied to the
page slice only, never to the full filtered set. -/
theorem list_page_is_slice (db : List Trade) (ac : Option String) (end_ : Option Int)
    (maxp minp : Option ℚ) (start : Option Int) (tt : Option String)
    (page limit : Int) (sort : String) (hp : 1 ≤ page) (hl : 1 ≤ limit) :
    (get_trades db ac end_ maxp minp start tt page limit sort).trades.Perm
      (((applyFilters db ac end_ maxp minp start tt).drop
          ((page - 1) * limit).toNat).take limit.toNat) ∧
    (get_trades db ac end_ maxp minp start tt page limit sort).trades
      = pySort (sortKeyLe (lowerChars sort == "desc".data))
          (((applyFilters db ac end_ maxp minp start tt).drop
              ((page - 1) * limit).toNat).take limit.toNat) := by
  have hs : (0 : Int) ≤ (page - 1) * limit := mul_nonneg (by omega) (by omega)
  have hslice := pySlice_nonneg (applyFilters db ac end_ maxp minp start tt)
    ((page - 1) * limit) limit hs (by omega)
  constructor
  · show (pySort _ (pySlice _ _ _)).Perm _
    rw [hslice]
    exact pySort_perm _ _
  · show pySort _ (pySlice _ _ _) = _
    rw [hslice]

/-- C3 (witness): a concrete instance — on a collection whose dates are
[2, 1] in insertion order, page 1 of size 1 contains the first inserted
record (date 2), not the earliest-dated record. -/
theorem list_page_is_slice_witness :
    (1 : Int) ≤ 1 ∧
    (get_trades exDb2 none none none none none none 1 1 "desc").trades.Perm
      (((applyFilters exDb2 none none none none none none).drop
          (((1 : Int) - 1) * 1).toNat).take (1 : Int).toNat) :=
  ⟨by norm_num,
    (list_page_is_slice exDb2 none none none none none none 1 1 "desc"
      (by norm_num) (by norm_num)).1⟩

/-- A one-record collection with price 5. -/
def exDb1 : List Trade := [sampleTrade "0" 1 5]

/-- C4 (counterexample): supplying min_price = 1 and max_price = 0 on a
collection whose single record has price 5, the code counts the record
(total_count = 1) although it violates the supplied inclusive bound
price ≤ 0 (the claimed count is 0): a supplied zero bound is skipped by
the truthiness guard, so "counted iff every supplied predicate holds"
fails. -/
theorem price_zero_bound_counterexample :
    (get_trades exDb1 none none (some 0) (some 1) none none 1 4 "desc").total_count = 1 ∧
    (exDb1.filter (specSatisfiesSupplied none none (some 0) (some 1) none none)).length = 0 :=
  ⟨by decide, by decide⟩

/-- C4 (amended): when both supplied price bounds are nonzero (so their
truthiness guards fire), a record is counted in total_count iff it
satisfies every supplied predicate conjunctively, with min_price and
max_price as inclusive bounds on tradeDetails.price; a record with price
exactly equal to a bound is included. A supplied zero bound is ignored
(see the truthiness behavior). -/
theorem price_bounds_inclusive_conjunctive (db : List Trade) (ac : Option String)
    (end_ : Option Int) (start : Option Int) (tt : Option String) (maxp minp : ℚ)
    (hmax : maxp ≠ 0) (hmin : minp ≠ 0) (page limit : Int) (sort : String) :
    (get_trades db ac end_ (some maxp) (some minp) start tt page limit sort).total_count
      = (db.filter (fun t => satisfiesAll ac end_ none none start tt t
          && decide (minp ≤ t.trade_details.price)
          && decide (t.trade_details.price ≤ maxp))).length ∧
    (∀ t, t ∈ applyFilters db ac end_ (some maxp) (some minp) start tt ↔
      (t ∈ db ∧ satisfiesAll ac end_ none none start tt t = true
        ∧ minp ≤ t.trade_details.price ∧ t.trade_details.price ≤ maxp)) := by
  have hmax2 : truthyR (some maxp) = true := by simp [truthyR, hmax]
  have hmin2 : truthyR (some minp) = true := by simp [truthyR, hmin]
  have hfun : ∀ t : Trade, satisfiesAll ac end_ (some maxp) (some minp) start tt t
      = (satisfiesAll ac end_ none none start tt t
          && decide (minp ≤ t.trade_details.price)
          && decide (t.trade_details.price ≤ maxp)) := by
    intro t
    unfold satisfiesAll
    rw [hmax2, hmin2]
    simp only [truthyR, Option.getD_some]
    cases truthyS ac <;> cases truthyD end_ <;> cases truthyD start <;> cases truthyS tt <;>
      simp [Bool.and_comm, Bool.and_assoc, Bool.and_left_comm]
  constructor
  · show (applyFilters db ac end_ (some maxp) (some minp) start tt).length = _
    rw [applyFilters_eq_filter]
    congr 1
    exact List.filter_congr (fun t _ => hfun t)
  · intro t
    rw [applyFilters_eq_filter, List.mem_filter, hfun t]
    simp [and_assoc]

/-- C4 (witness): a concrete instance with the record's price exactly at
the max bound — the boundary record is counted. -/
theorem price_bounds_inclusive_witness :
    (5 : ℚ) ≠ 0 ∧ (1 : ℚ) ≠ 0 ∧
    (get_trades exDb1 none none (some 5) (some 1) none none 1 4 "desc").total_count
      = (exDb1.filter (fun t => satisfiesAll none none none none none none t
          && decide ((1 : ℚ) ≤ t.trade_details.price)
          && decide (t.trade_details.price ≤ (5 : ℚ)))).length :=
  ⟨by norm_num, by norm_num,
    (price_bounds_inclusive_conjunctive exDb1 none none none none 5 1
      (by norm_num) (by norm_num) 1 4 "desc").1⟩

/-- C5: a search with q = "" matches every record: total_count equals the
size of the whole collection, and the returned page is (a permutation,
after the in-page date sort, of) the pagination slice of the whole
collection. -/
theorem search_empty_matches_all (db : List Trade) (page limit : Int) (sort : String) :
    (search_trades db "" page limit sort).total_count = db.length ∧
    (search_trades db "" page limit sort).trades.Perm
      (pySlice db ((page - 1) * limit) ((page - 1) * limit + limit)) ∧
    (search_trades db "" page limit sort).trades
      = pySort (sortKeyLe (lowerChars sort == "desc".data))
          (pySlice db ((page - 1) * limit) ((page - 1) * limit + limit)) := by
  have hdb : db.filter (matchesQ (lowerChars "")) = db :=
    List.filter_eq_self.mpr (fun t _ => matchesQ_nil t)
  refine ⟨?_, ?_, ?_⟩
  · show (db.filter (matchesQ (lowerChars ""))).length = db.length
    rw [hdb]
  · show (pySort _ (pySlice (db.filter (matchesQ (lowerChars ""))) _ _)).Perm _
    rw [hdb]
    exact pySort_perm _ _
  · show pySort _ (pySlice (db.filter (matchesQ (lowerChars ""))) _ _) = _
    rw [hdb]

/-- C6: search is case-insensitive — two queries with the same lowering
produce identical responses — and a record matches exactly when the
lowered query is a substring of the lowered counterparty (skipped when
null), instrument_id, instrument_name, or trader (OR across fields). -/
theorem search_case_insensitive (db : List Trade) (q1 q2 : String)
    (hq : lowerChars q1 = lowerChars q2) (page limit : Int) (sort : String) :
    search_trades db q1 page limit sort = search_trades db q2 page limit sort ∧
    (∀ t, matchesQ (lowerChars q1) t = true ↔
      ((∃ c, t.counterparty = some c ∧ subIn (lowerChars q1) (lowerChars c) = true) ∨
       subIn (lowerChars q1) (lowerChars t.instrument_id) = true ∨
       subIn (lowerChars q1) (lowerChars t.instrument_name) = true ∨
       subIn (lowerChars q1) (lowerChars t.trader) = true)) := by
  constructor
  · unfold search_trades
    rw [hq]
  · intro t
    unfold matchesQ
    cases h : t.counterparty <;> simp [h, or_assoc]

/-- C6 (witness): q = "tesla" and q = "TESLA" yield identical responses on
a concrete collection. -/
theorem search_case_insensitive_witness :
    lowerChars "tesla" = lowerChars "TESLA" ∧
    search_trades exDb2 "tesla" 1 4 "desc" = search_trades exDb2 "TESLA" 1 4 "desc" :=
  ⟨by decide,
    (search_case_insensitive exDb2 "tesla" "TESLA" (by decide) 1 4 "desc").1⟩

/-- C7: the get-by-id endpoint returns the first record in collection
order whose tradeId equals the requested id exactly, and the error object
with message "Trade not found" exactly when no record matches. -/
theorem get_trade_by_id_first_match (db : List Trade) (tid : String) :
    (get_trade_by_id db tid = .err "Trade not found" ↔ ∀ t ∈ db, t.trade_id ≠ tid) ∧
    (∀ t, get_trade_by_id db tid = .found t →
      t.trade_id = tid ∧ ∃ pre post, db = pre ++ t :: post ∧ ∀ u ∈ pre, u.trade_id ≠ tid) := by
  induction db with
  | nil =>
    constructor
    · simp [get_trade_by_id]
    · intro t ht
      simp [get_trade_by_id] at ht
  | cons a rest ih =>
    by_cases ha : a.trade_id = tid
    · have hstep : get_trade_by_id (a :: rest) tid = .found a := by
        simp [get_trade_by_id, ha]
      constructor
      · rw [hstep]
        constructor
        · intro h
          exact absurd h (by simp)
        · intro h
          exact absurd ha (h a (by simp))
      · intro t ht
        rw [hstep] at ht
        have hta : a = t := by
          simpa using ht
        subst hta
        exact ⟨ha, [], rest, rfl, by simp⟩
    · have hstep : get_trade_by_id (a :: rest) tid = get_trade_by_id rest tid := by
        simp [get_trade_by_id, ha]
      constructor
      · rw [hstep, ih.1]
        simp [List.forall_mem_cons, ha]
      · intro t ht
        rw [hstep] at ht
        obtain ⟨h1, pre, post, heq, hpre⟩ := ih.2 t ht
        refine ⟨h1, a :: pre, post, by simp [heq], ?_⟩
        intro u hu
        rcases List.mem_cons.mp hu with h | h
        · subst h
          exact ha
        · exact hpre u h

/-- C7 (witness): concrete instances of both directions — the id "1" is
found as the matching record, and a missing id yields the error object. -/
theorem get_trade_by_id_first_match_witness :
    (get_trade_by_id exDb2 "1" = .found (sampleTrade "1" 1 20) →
      (sampleTrade "1" 1 20).trade_id = "1" ∧
        ∃ pre post, exDb2 = pre ++ sampleTrade "1" 1 20 :: post ∧
          ∀ u ∈ pre, u.trade_id ≠ "1") ∧
    (get_trade_by_id exDb2 "9999" = .err "Trade not found" ↔
      ∀ t ∈ exDb2, t.trade_id ≠ "9999") :=
  ⟨(get_trade_by_id_first_match exDb2 "1").2 (sampleTrade "1" 1 20),
   (get_trade_by_id_first_match exDb2 "9999").1⟩

/-- C8: no request mutates the stored collection — in the heap model, the
cell holding the collection is identical before and after a call to the
list, search or get-by-id handler, and each heap handler returns the same
response as its pure counterpart (the in-place sort touches only the
freshly allocated page slice). -/
theorem handlers_do_not_mutate (h0 : List (List Trade)) (dbRef : Nat)
    (href : dbRef < h0.length) (ac : Option String) (end_ : Option Int)
    (maxp minp : Option ℚ) (start : Option Int) (tt : Option String)
    (page limit : Int) (sort q tid : String) :
    ((get_trades_heap h0 dbRef ac end_ maxp minp start tt page limit sort).2).getD dbRef []
        = h0.getD dbRef [] ∧
    ((search_trades_heap h0 dbRef q page limit sort).2).getD dbRef [] = h0.getD dbRef [] ∧
    (get_trade_by_id_heap h0 dbRef tid).2 = h0 ∧
    (get_trades_heap h0 dbRef ac end_ maxp minp start tt page limit sort).1
        = get_trades (h0.getD dbRef []) ac end_ maxp minp start tt page limit sort ∧
    (search_trades_heap h0 dbRef q page limit sort).1
        = search_trades (h0.getD dbRef []) q page limit sort := by
  refine ⟨?_, ?_, rfl, ?_, ?_⟩
  · simp only [get_trades_heap]
    rw [getD_appended_cell, set_appended_cell]
    exact List.getD_append _ _ _ dbRef href
  · simp only [search_trades_heap]
    rw [getD_appended_cell, set_appended_cell]
    exact List.getD_append _ _ _ dbRef href
  · simp only [get_trades_heap, get_trades]
    rw [getD_appended_cell, set_appended_cell, getD_appended_cell]
  · simp only [search_trades_heap, search_trades]
    rw [getD_appended_cell, set_appended_cell, getD_appended_cell]

/-- C8 (witness): a concrete heap holding one collection is untouched by a
list request. -/
theorem handlers_do_not_mutate_witness :
    (0 : Nat) < ([exDb2] : List (List Trade)).length ∧
    ((get_trades_heap [exDb2] 0 none none none none none none 1 4 "desc").2).getD 0 []
      = ([exDb2] : List (List Trade)).getD 0 [] :=
  ⟨by decide,
    (handlers_do_not_mutate [exDb2] 0 (by decide) none none none none none none
      1 4 "desc" "" "").1⟩

set_option maxRecDepth 10000 in
/-- The hundred sequential id strings are pairwise distinct. -/
theorem range100_toString_nodup :
    ((List.range 100).map (fun i => toString i)).Nodup := by decide

/-- C9: for every random source, the generator produces exactly 100
records; the i-th record's tradeId is the decimal string of i and its
trader is the element at position i modulo 5 of the fixed trader list;
consequently all generated tradeIds are distinct. -/
theorem generate_db_ids_and_traders (r : Rng) :
    (generate_db r).length = 100 ∧
    (∀ i, i < 100 →
      ((generate_db r).getD i defaultTrade).trade_id = toString i ∧
      ((generate_db r).getD i defaultTrade).trader = traders.getD (i % 5) "") ∧
    ((generate_db r).map (fun t => t.trade_id)).Nodup := by
  have h5 : traders.length = 5 := rfl
  refine ⟨by simp [generate_db], ?_, ?_⟩
  · intro i hi
    have hlen : i < (generate_db r).length := by
      simpa [generate_db] using hi
    constructor
    · rw [List.getD_eq_getElem _ _ hlen]
      simp [generate_db, mkTrade]
    · rw [List.getD_eq_getElem _ _ hlen]
      simp [generate_db, mkTrade, h5]
  · show (((List.range 100).map (mkTrade r)).map (fun t => t.trade_id)).Nodup
    rw [List.map_map]
    exact range100_toString_nodup

/-- C9 (witness): a concrete instance at index 7 of the all-zero random
source (7 mod 5 = 2, the third trader). -/
theorem generate_db_ids_and_traders_witness :
    (7 : Nat) < 100 ∧
    ((generate_db zeroRng).getD 7 defaultTrade).trade_id = toString 7 ∧
    ((generate_db zeroRng).getD 7 defaultTrade).trader = traders.getD (7 % 5) "" :=
  ⟨by norm_num, (generate_db_ids_and_traders zeroRng).2.1 7 (by norm_num)⟩

/-- C10: a zero-valued min_price or max_price, or an empty asset_class, is
skipped by the truthiness guard, so the request behaves exactly as if the
parameter were absent, on every collection and for all other parameters. -/
theorem zero_valued_params_ignored (db : List Trade) (ac : Option String)
    (end_ : Option Int) (maxp minp : Option ℚ) (start : Option Int) (tt : Option String)
    (page limit : Int) (sort : String) :
    get_trades db ac end_ (some 0) minp start tt page limit sort
      = get_trades db ac end_ none minp start tt page limit sort ∧
    get_trades db ac end_ maxp (some 0) start tt page limit sort
      = get_trades db ac end_ maxp none start tt page limit sort ∧
    get_trades db (some "") end_ maxp minp start tt page limit sort
      = get_trades db none end_ maxp minp start tt page limit sort := by
  have hr0 : truthyR (some 0) = false := by decide
  have hrn : truthyR none = false := rfl
  have hs0 : truthyS (some "") = false := by decide
  have hsn : truthyS none = false := rfl
  refine ⟨?_, ?_, ?_⟩ <;>
    simp [get_trades, applyFilters, guardFilter, hr0, hrn, hs0, hsn]

end TradeService
